import Mathlib

/-!
Verification of the Reborncloud Groq Bot server-side logic.

The development shallowly embeds the two API handlers of the repository:
the model-listing endpoint (`pages/api/models.ts`, present in the sources)
and the chat relay endpoint (`pages/api/chat.ts`, modelled from the spec
where its code is not among the provided sources), together with the
client-side conversation export/import round trip.
-/

namespace GroqBot

/-- Sum of the estimated token counts of a list of messages, where `tok`
is the token estimator applied to each message. -/
def sumTok {α : Type} (tok : α → Nat) : List α → Nat
  | [] => 0
  | m :: rest => tok m + sumTok tok rest

/-- Modelled from the spec: the trimming loop of `pages/api/chat.ts`
(the file itself is not among the provided sources; the spec describes it as
"trim the message list from the most recent message backward until the
cumulative estimated token count plus a fixed safety margin stays under the
selected model's token limit", and `PROJECT_STRUCTURE.md` documents the loop
guard `tokenCount + tokens.length + 1000 > model.tokenLimit`).
The argument list is the message list in newest-first order (the loop of the
source walks the array from its last index down); `acc` is the running
`tokenCount`. The result is the kept messages, newest first. -/
def trimAux {α : Type} (limit : Nat) (tok : α → Nat) : List α → Nat → List α
  | [], _ => []
  | m :: rest, acc =>
      if acc + tok m + 1000 > limit then []
      else m :: trimAux limit tok rest (acc + tok m)

/-- Modelled from the spec: `messagesToSend` of `pages/api/chat.ts`.
The loop scans `msgs` from its most recent (last) element backward and
prepends each kept message, so the kept messages come back in their
original order. -/
def messagesToSend {α : Type} (limit : Nat) (tok : α → Nat) (msgs : List α) : List α :=
  (trimAux limit tok msgs.reverse 0).reverse

theorem trimAux_append {α : Type} (limit : Nat) (tok : α → Nat) :
    ∀ (xs : List α) (acc : Nat), ∃ rest, trimAux limit tok xs acc ++ rest = xs := by
  intro xs
  induction xs with
  | nil => intro acc; exact ⟨[], rfl⟩
  | cons m rest ih =>
      intro acc
      by_cases h : acc + tok m + 1000 > limit
      · exact ⟨m :: rest, by simp [trimAux, h]⟩
      · obtain ⟨r, hr⟩ := ih (acc + tok m)
        exact ⟨r, by simp [trimAux, h, hr]⟩

theorem trimAux_budget {α : Type} (limit : Nat) (tok : α → Nat) :
    ∀ (xs : List α) (acc : Nat), acc + 1000 ≤ limit →
      acc + sumTok tok (trimAux limit tok xs acc) + 1000 ≤ limit := by
  intro xs
  induction xs with
  | nil => intro acc h; simpa [trimAux, sumTok] using h
  | cons m rest ih =>
      intro acc h
      by_cases hb : acc + tok m + 1000 > limit
      · simpa [trimAux, hb, sumTok] using h
      · have h2 : acc + tok m + 1000 ≤ limit := Nat.le_of_not_lt hb
        have := ih (acc + tok m) h2
        simp only [trimAux, hb, if_false, sumTok]
        omega

theorem trimAux_maximal {α : Type} (limit : Nat) (tok : α → Nat) :
    ∀ (xs : List α) (acc : Nat),
      trimAux limit tok xs acc = xs ∨
      ∃ b tail, trimAux limit tok xs acc ++ b :: tail = xs ∧
        limit < acc + sumTok tok (trimAux limit tok xs acc) + tok b + 1000 := by
  intro xs
  induction xs with
  | nil => intro acc; exact Or.inl rfl
  | cons m rest ih =>
      intro acc
      by_cases hb : acc + tok m + 1000 > limit
      · refine Or.inr ⟨m, rest, ?_, ?_⟩
        · simp [trimAux, hb]
        · simp only [trimAux, hb, if_true, sumTok]
          omega
      · rcases ih (acc + tok m) with heq | ⟨b, tail, happ, hlt⟩
        · exact Or.inl (by simp [trimAux, hb, heq])
        · refine Or.inr ⟨b, tail, ?_, ?_⟩
          · simp [trimAux, hb, happ]
          · simp only [trimAux, hb, if_false, sumTok]
            omega

theorem sumTok_reverse {α : Type} (tok : α → Nat) (xs : List α) :
    sumTok tok xs.reverse = sumTok tok xs := by
  induction xs with
  | nil => rfl
  | cons m rest ih =>
      have happ : ∀ (ys zs : List α), sumTok tok (ys ++ zs) = sumTok tok ys + sumTok tok zs := by
        intro ys zs
        induction ys with
        | nil => simp [sumTok]
        | cons y ys ihy => simp [sumTok, ihy]; omega
      simp [List.reverse_cons, happ, sumTok, ih]
      omega

theorem sumTok_append {α : Type} (tok : α → Nat) (ys zs : List α) :
    sumTok tok (ys ++ zs) = sumTok tok ys + sumTok tok zs := by
  induction ys with
  | nil => simp [sumTok]
  | cons y ys ihy => simp [sumTok, ihy]; omega

/-- C1: the chat handler keeps a suffix of the message list (so only the
oldest messages are dropped and the kept messages stay in their original
relative order), the kept suffix plus the 1000-token safety margin fits
under the model's token limit, and messages are dropped only as long as
keeping one more would overflow the budget. -/
theorem chat_trim_drops_oldest_until_fit {α : Type} (limit : Nat) (tok : α → Nat)
    (msgs : List α) (hmargin : 1000 ≤ limit) :
    (∃ dropped, dropped ++ messagesToSend limit tok msgs = msgs) ∧
    sumTok tok (messagesToSend limit tok msgs) + 1000 ≤ limit ∧
    (messagesToSend limit tok msgs ≠ msgs →
      ∃ dropped b, dropped ++ b :: messagesToSend limit tok msgs = msgs ∧
        limit < sumTok tok (messagesToSend limit tok msgs) + tok b + 1000) := by
  refine ⟨?_, ?_, ?_⟩
  · obtain ⟨rest, hr⟩ := trimAux_append limit tok msgs.reverse 0
    refine ⟨rest.reverse, ?_⟩
    have : (trimAux limit tok msgs.reverse 0 ++ rest).reverse = msgs.reverse.reverse := by
      rw [hr]
    simpa [List.reverse_append, messagesToSend] using this
  · have := trimAux_budget limit tok msgs.reverse 0 (by omega)
    simpa [messagesToSend, sumTok_reverse] using this
  · intro hne
    rcases trimAux_maximal limit tok msgs.reverse 0 with heq | ⟨b, tail, happ, hlt⟩
    · exfalso
      apply hne
      simp [messagesToSend, heq]
    · refine ⟨tail.reverse, b, ?_, ?_⟩
      · have : (trimAux limit tok msgs.reverse 0 ++ b :: tail).reverse = msgs.reverse.reverse := by
          rw [happ]
        simpa [List.reverse_append, messagesToSend] using this
      · have hs : sumTok tok (messagesToSend limit tok msgs) =
            sumTok tok (trimAux limit tok msgs.reverse 0) := by
          simp [messagesToSend, sumTok_reverse]
        rw [hs]
        omega

/-- C1 witness: with a 5000-token limit and messages of 4000, 200 and 100
estimated tokens (oldest first), the oldest message is dropped and the kept
suffix `[200, 100]` fits: 300 + 1000 ≤ 5000, while keeping the 4000-token
message would overflow. -/
theorem chat_trim_drops_oldest_until_fit_witness :
    (1000 ≤ 5000) ∧
    ((∃ dropped, dropped ++ messagesToSend 5000 id [4000, 200, 100] = [4000, 200, 100]) ∧
     sumTok id (messagesToSend 5000 id [4000, 200, 100]) + 1000 ≤ 5000 ∧
     (messagesToSend 5000 id [4000, 200, 100] ≠ [4000, 200, 100] →
       ∃ dropped b, dropped ++ b :: messagesToSend 5000 id [4000, 200, 100] = [4000, 200, 100] ∧
         5000 < sumTok id (messagesToSend 5000 id [4000, 200, 100]) + id b + 1000)) :=
  ⟨by decide, chat_trim_drops_oldest_until_fit 5000 id [4000, 200, 100] (by decide)⟩

/-- A model record as defined by `OpenAIModel` in `types/openai.ts`:
fields `id`, `name`, `maxLength` and `tokenLimit`. -/
structure OpenAIModel where
  id : String
  name : String
  maxLength : Nat
  tokenLimit : Nat
deriving DecidableEq, Repr

/-- The `OpenAIModelID` enum of `types/openai.ts`, in declaration order. -/
inductive OpenAIModelID where
  | GPT_3_5
  | GPT_4
  | LLAMA_3_1_8B
  | LLAMA_3_3_70B
  | GEMMA2_9B
  | COMPOUND_BETA
deriving DecidableEq, Repr

/-- The string value of each `OpenAIModelID` enum member. -/
def OpenAIModelID.val : OpenAIModelID → String
  | .GPT_3_5 => "gpt-3.5-turbo"
  | .GPT_4 => "gpt-4"
  | .LLAMA_3_1_8B => "llama-3.1-8b-instant"
  | .LLAMA_3_3_70B => "llama-3.3-70b-versatile"
  | .GEMMA2_9B => "gemma2-9b-it"
  | .COMPOUND_BETA => "compound-beta"

/-- The members of `OpenAIModelID` in the order `Object.entries` yields them
(declaration order of the TypeScript string enum). -/
def allModelIDs : List OpenAIModelID :=
  [.GPT_3_5, .GPT_4, .LLAMA_3_1_8B, .LLAMA_3_3_70B, .GEMMA2_9B, .COMPOUND_BETA]

/-- The `OpenAIModels` record of `types/openai.ts`. -/
def OpenAIModels : OpenAIModelID → OpenAIModel
  | .GPT_3_5 => ⟨"gpt-3.5-turbo", "GPT-3.5", 12000, 4000⟩
  | .GPT_4 => ⟨"gpt-4", "GPT-4", 24000, 8000⟩
  | .LLAMA_3_1_8B => ⟨"llama-3.1-8b-instant", "Llama 3.1 8B (Fast)", 120000, 131072⟩
  | .LLAMA_3_3_70B => ⟨"llama-3.3-70b-versatile", "Llama 3.3 70B (Powerful)", 120000, 131072⟩
  | .GEMMA2_9B => ⟨"gemma2-9b-it", "Gemma 2 9B", 24000, 8192⟩
  | .COMPOUND_BETA => ⟨"compound-beta", "Compound Beta (Groq)", 120000, 131072⟩

/-- Does the character list `xs` start with `needle`? (helper for the
JavaScript `String.prototype.includes` test used by the handler). -/
def startsWithL : List Char → List Char → Bool
  | _, [] => true
  | [], _ :: _ => false
  | a :: as, b :: bs => a == b && startsWithL as bs

/-- Does `hay` contain `needle` as a contiguous run? -/
def hasSubstrL (hay needle : List Char) : Bool :=
  match hay with
  | [] => startsWithL [] needle
  | _ :: rest => startsWithL hay needle || hasSubstrL rest needle

/-- JavaScript `hay.includes(needle)` on strings: substring containment. -/
def strIncludes (hay needle : String) : Bool :=
  hasSubstrL hay.toList needle.toList

/-- The dynamic-branch filter of `pages/api/models.ts`: keep a model id that
contains one of the substrings `llama`, `gemma`, `compound` or `gpt`. -/
def matchesDyn (id : String) : Bool :=
  strIncludes id "llama" || strIncludes id "gemma" ||
    strIncludes id "compound" || strIncludes id "gpt"

/-- JavaScript's `\w` character class (ASCII word character). -/
def isWordChar (c : Char) : Bool :=
  c.isAlphanum || c == '_'

/-- Uppercase every word character that starts a word (the
`replace(/\b\w/g, l => l.toUpperCase())` step); `prevWord` records whether
the preceding character was a word character. -/
def upWordStarts : Bool → List Char → List Char
  | _, [] => []
  | prevWord, c :: cs =>
      (if isWordChar c && !prevWord then c.toUpper else c) :: upWordStarts (isWordChar c) cs

/-- The display-name transform of the dynamic branch: replace every dash
with a space, then uppercase every word-start character
(`replace(/\b\w/g, l => l.toUpperCase())`). -/
def titleCaseName (s : String) : String :=
  String.mk (upWordStarts false (s.toList.map (fun c => if c == '-' then ' ' else c)))

/-- The record the dynamic branch builds for an upstream model id:
title-cased name, `maxLength` 120000 and `tokenLimit` 131072. -/
def dynModel (id : String) : OpenAIModel :=
  ⟨id, titleCaseName id, 120000, 131072⟩

/-- The predefined-model loop of `pages/api/models.ts`: for each enum member
in `Object.entries` order, push its `OpenAIModels` record when its id occurs
in the upstream list. -/
def predefinedModels (upstream : List String) : List OpenAIModel :=
  (allModelIDs.filter (fun i => upstream.contains i.val)).map OpenAIModels

/-- The dynamic branch of `pages/api/models.ts`: filter the upstream ids by
`matchesDyn`, keep at most the first five, and build a `dynModel` for each. -/
def dynamicModels (upstream : List String) : List OpenAIModel :=
  ((upstream.filter matchesDyn).take 5).map dynModel

/-- The model list the handler returns on a 200 upstream response: the
predefined models when any were found, otherwise the dynamic list. -/
def computeModels (upstream : List String) : List OpenAIModel :=
  if (predefinedModels upstream).isEmpty then dynamicModels upstream
  else predefinedModels upstream

/-- The static fallback list of the catch branch of `pages/api/models.ts`. -/
def fallbackModels : List OpenAIModel :=
  [⟨"llama-3.1-8b-instant", "Llama 3.1 8B (Fast)", 120000, 131072⟩,
   ⟨"llama-3.3-70b-versatile", "Llama 3.3 70B (Powerful)", 120000, 131072⟩,
   ⟨"gemma2-9b-it", "Gemma 2 9B", 24000, 8192⟩]

/-- Outcome of the upstream `fetch` to `${OPENAI_API_HOST}/v1/models`:
either the call (or a later body read) threw, or it returned a status and a
body whose model ids are listed. -/
inductive FetchOutcome where
  | thrown
  | ok (status : Nat) (modelIds : List String)

/-- The handler's HTTP response: either the upstream body passed through
(the 401 branch) or a JSON model list, each with its status code. -/
inductive ModelsResponse where
  | passthrough (status : Nat)
  | modelList (status : Nat) (models : List OpenAIModel)
deriving DecidableEq, Repr

/-- Status code of a handler response. -/
def ModelsResponse.status : ModelsResponse → Nat
  | .passthrough s => s
  | .modelList s _ => s

/-- JavaScript truthiness of a string: non-empty strings are truthy. -/
def jsTruthy (s : String) : Bool :=
  s != ""

/-- The Authorization header value the handler sends upstream:
`Bearer ${key ? key : process.env.OPENAI_API_KEY}`. -/
def modelsAuthHeader (key envKey : String) : String :=
  "Bearer " ++ (if jsTruthy key then key else envKey)

/-- The `pages/api/models.ts` handler, as a function of the request body's
`key`, the `OPENAI_API_KEY` environment value, and the upstream fetch
outcome. It returns the Authorization header sent upstream together with the
HTTP response. A thrown fetch lands in the catch branch (status 200,
fallback list); an upstream 401 is returned as a passthrough with status
500; any other non-200 status makes the handler throw, which the same catch
branch turns into the 200 fallback response; a 200 upstream response yields
`computeModels` with status 200. -/
def modelsHandler (key envKey : String) (r : FetchOutcome) : String × ModelsResponse :=
  (modelsAuthHeader key envKey,
   match r with
   | .thrown => .modelList 200 fallbackModels
   | .ok status body =>
       if status == 401 then .passthrough 500
       else if status != 200 then .modelList 200 fallbackModels
       else .modelList 200 (computeModels body))

/-- Modelled from the spec: the failure raised inside the chat relay
(`pages/api/chat.ts` and `utils/server/index.ts` are not among the provided
sources). The spec lists an `OpenAIError` (upstream rejection, e.g. an
invalid key) and a generic network failure. -/
inductive ChatFailure where
  | openAIError (msg : String)
  | networkError

/-- Modelled from the spec: the catch branch of `pages/api/chat.ts` as
documented by `PROJECT_STRUCTURE.md`: an `OpenAIError` becomes a response
with status 500 and the error message as statusText; the spec maps network
failure to a generic 500 as well. The result is (status, statusText). -/
def chatCatch : ChatFailure → Nat × String
  | .openAIError msg => (500, msg)
  | .networkError => (500, "")

/-- Modelled from the spec: the chat relay's response status as a function
of the upstream status. Any non-200 upstream status (including the 401 an
invalid bearer token provokes) raises an `OpenAIError` that the catch
branch turns into a 500; a 200 upstream response streams through as 200. -/
def chatHandlerStatus (upstreamStatus : Nat) (errMsg : String) : Nat :=
  if upstreamStatus != 200 then (chatCatch (.openAIError errMsg)).1 else 200

/-- C6: an invalid upstream API key makes the upstream reject the bearer
token with a 401, and the /api/chat endpoint then responds with HTTP 500. -/
theorem chat_invalid_key_500 (msg : String) : chatHandlerStatus 401 msg = 500 := rfl

/-- C2: when the upstream call throws, and likewise when the upstream
returns a non-200 non-401 status (which the handler converts into a thrown
error), /api/models returns exactly the static hardcoded three-model
fallback list verbatim as its JSON body. -/
theorem models_fallback_on_throw (key envKey : String) (s : Nat) (body : List String)
    (h200 : s ≠ 200) (h401 : s ≠ 401) :
    (modelsHandler key envKey .thrown).2 =
      .modelList 200
        [⟨"llama-3.1-8b-instant", "Llama 3.1 8B (Fast)", 120000, 131072⟩,
         ⟨"llama-3.3-70b-versatile", "Llama 3.3 70B (Powerful)", 120000, 131072⟩,
         ⟨"gemma2-9b-it", "Gemma 2 9B", 24000, 8192⟩] ∧
    (modelsHandler key envKey (.ok s body)).2 =
      .modelList 200
        [⟨"llama-3.1-8b-instant", "Llama 3.1 8B (Fast)", 120000, 131072⟩,
         ⟨"llama-3.3-70b-versatile", "Llama 3.3 70B (Powerful)", 120000, 131072⟩,
         ⟨"gemma2-9b-it", "Gemma 2 9B", 24000, 8192⟩] := by
  constructor
  · rfl
  · have h1 : (s == 401) = false := by simp [h401]
    have h2 : (s != 200) = true := by simp [h200]
    simp [modelsHandler, h1, h2, fallbackModels]

/-- C2 witness: with a throwing upstream and with an upstream 503, the
handler returns the fallback list. -/
theorem models_fallback_on_throw_witness :
    (503 ≠ 200) ∧ (503 ≠ 401) ∧
    (modelsHandler "k" "e" .thrown).2 =
      .modelList 200
        [⟨"llama-3.1-8b-instant", "Llama 3.1 8B (Fast)", 120000, 131072⟩,
         ⟨"llama-3.3-70b-versatile", "Llama 3.3 70B (Powerful)", 120000, 131072⟩,
         ⟨"gemma2-9b-it", "Gemma 2 9B", 24000, 8192⟩] ∧
    (modelsHandler "k" "e" (.ok 503 ["x"])).2 =
      .modelList 200
        [⟨"llama-3.1-8b-instant", "Llama 3.1 8B (Fast)", 120000, 131072⟩,
         ⟨"llama-3.3-70b-versatile", "Llama 3.3 70B (Powerful)", 120000, 131072⟩,
         ⟨"gemma2-9b-it", "Gemma 2 9B", 24000, 8192⟩] :=
  ⟨by decide, by decide,
   (models_fallback_on_throw "k" "e" 503 ["x"] (by decide) (by decide)).1,
   (models_fallback_on_throw "k" "e" 503 ["x"] (by decide) (by decide)).2⟩

/-- C4 counterexample: on an upstream 401 the /api/models handler's own
response status is 500, not the upstream's 401 as the claim states. -/
theorem models_401_not_propagated :
    (modelsHandler "k" "e" (.ok 401 [])).2.status ≠ 401 := by decide

/-- C4 amended: on an upstream 401, /api/models responds with HTTP 500,
passing the upstream body through. -/
theorem models_401_remapped_to_500 (key envKey : String) (body : List String) :
    (modelsHandler key envKey (.ok 401 body)).2 = .passthrough 500 := rfl

/-- C5 counterexample: when the upstream call throws, /api/models does not
respond 500 — its catch branch responds 200 (with the fallback list). -/
theorem models_thrown_not_500 :
    (modelsHandler "k" "e" .thrown).2.status ≠ 500 := by decide

/-- C5 amended: on upstream/network failure /api/chat responds with a fixed
HTTP 500, but /api/models responds 200 carrying the static fallback list. -/
theorem upstream_failure_status_split :
    (∀ f, (chatCatch f).1 = 500) ∧
    (∀ key envKey : String, (modelsHandler key envKey .thrown).2 = .modelList 200 fallbackModels ∧
      (modelsHandler key envKey .thrown).2.status = 200) :=
  ⟨fun f => by cases f <;> rfl, fun _ _ => ⟨rfl, rfl⟩⟩

/-- C9: when the upstream 200 response contains none of the predefined
model ids, /api/models responds 200 with at most the first five
substring-matching upstream ids turned into dynamic models (maxLength
120000, tokenLimit 131072), and with the empty array when no upstream id
matches the filter. -/
theorem models_dynamic_branch (key envKey : String) (upstream : List String)
    (h : (allModelIDs.all fun i => !(upstream.contains i.val)) = true) :
    (modelsHandler key envKey (.ok 200 upstream)).2 =
      .modelList 200 (((upstream.filter matchesDyn).take 5).map dynModel) ∧
    (((upstream.filter matchesDyn).take 5).map dynModel).length ≤ 5 ∧
    (upstream.filter matchesDyn = [] →
      (modelsHandler key envKey (.ok 200 upstream)).2 = .modelList 200 []) := by
  have hpre : predefinedModels upstream = [] := by
    unfold predefinedModels
    have hf : allModelIDs.filter (fun i => upstream.contains i.val) = [] := by
      rw [List.filter_eq_nil_iff]
      intro a ha
      have := List.all_eq_true.mp h a ha
      simp at this
      simp [this]
    rw [hf]
    rfl
  refine ⟨?_, ?_, ?_⟩
  · simp [modelsHandler, computeModels, hpre, dynamicModels]
  · simp only [List.length_map, List.length_take]
    exact Nat.le_trans (Nat.min_le_left _ _) (Nat.le_refl 5)
  · intro hnone
    simp [modelsHandler, computeModels, hpre, dynamicModels, hnone]

/-- C9 witness: with upstream ids `llama-guard-3-8b` and `whisper-large-v3`
(none of them predefined), only the first matches the substring filter and
the handler returns exactly its dynamic model. -/
theorem models_dynamic_branch_witness :
    (allModelIDs.all fun i =>
      !((["llama-guard-3-8b", "whisper-large-v3"] : List String).contains i.val)) = true ∧
    (modelsHandler "k" "e" (.ok 200 ["llama-guard-3-8b", "whisper-large-v3"])).2 =
      .modelList 200 [⟨"llama-guard-3-8b", "Llama Guard 3 8b", 120000, 131072⟩] :=
  ⟨by decide, by
    have h := models_dynamic_branch "k" "e" ["llama-guard-3-8b", "whisper-large-v3"] (by decide)
    exact h.1.trans (by decide)⟩

/-- C3 counterexample: on a successful upstream response containing only
`llama-guard-3-8b` — an id absent from the hardcoded table — the response
is not the upstream∩table intersection: it contains a dynamically built
model whose id is in no table entry. -/
theorem models_not_intersection :
    (modelsHandler "k" "e" (.ok 200 ["llama-guard-3-8b"])).2 =
      .modelList 200 [⟨"llama-guard-3-8b", "Llama Guard 3 8b", 120000, 131072⟩] ∧
    ((allModelIDs.map OpenAIModelID.val).contains "llama-guard-3-8b") = false := by
  constructor
  · decide
  · decide

/-- C3 amended: when at least one predefined model id occurs in the
upstream list, the response is exactly the hardcoded table entries whose id
occurs upstream, in enum order — a model then appears iff its id is in both
the upstream list and the table; otherwise the dynamic branch runs
instead. -/
theorem models_intersection_when_predefined (key envKey : String) (upstream : List String)
    (h : predefinedModels upstream ≠ []) :
    (modelsHandler key envKey (.ok 200 upstream)).2 =
      .modelList 200 ((allModelIDs.filter (fun i => upstream.contains i.val)).map OpenAIModels) ∧
    ∀ m, m ∈ (allModelIDs.filter (fun i => upstream.contains i.val)).map OpenAIModels ↔
      ∃ i : OpenAIModelID, m = OpenAIModels i ∧ upstream.contains i.val = true := by
  have hne : (predefinedModels upstream).isEmpty = false := by
    cases hp : predefinedModels upstream with
    | nil => exact absurd hp h
    | cons a l => simp [hp]
  constructor
  · have hcm : computeModels upstream = predefinedModels upstream := by
      unfold computeModels
      rw [hne]
      simp
    simp [modelsHandler, hcm, predefinedModels]
  · intro m
    constructor
    · intro hm
      obtain ⟨i, hi, rfl⟩ := List.mem_map.mp hm
      exact ⟨i, rfl, (List.mem_filter.mp hi).2⟩
    · rintro ⟨i, rfl, hp⟩
      refine List.mem_map.mpr ⟨i, List.mem_filter.mpr ⟨?_, hp⟩, rfl⟩
      cases i <;> decide

/-- C3 amended witness: with upstream list `[gpt-4]` the predefined loop
finds `gpt-4` and the response is exactly its table entry. -/
theorem models_intersection_when_predefined_witness :
    predefinedModels ["gpt-4"] ≠ [] ∧
    (modelsHandler "k" "e" (.ok 200 ["gpt-4"])).2 =
      .modelList 200 [OpenAIModels .GPT_4] :=
  ⟨by decide, by
    have h := models_intersection_when_predefined "k" "e" ["gpt-4"] (by decide)
    exact h.1.trans (by decide)⟩

/-- C10: the upstream request of /api/models always carries a bearer
Authorization header — the request body's key when non-empty, the
`OPENAI_API_KEY` environment value otherwise — and an empty key is never
rejected locally: the handler's response is the one the upstream outcome
determines, identical to the response for any other key. -/
theorem models_auth_header_and_no_local_reject (key envKey : String) (r : FetchOutcome) :
    (key ≠ "" → (modelsHandler key envKey r).1 = "Bearer " ++ key) ∧
    (key = "" → (modelsHandler key envKey r).1 = "Bearer " ++ envKey) ∧
    (modelsHandler key envKey r).2 = (modelsHandler "" envKey r).2 := by
  refine ⟨?_, ?_, rfl⟩
  · intro hk
    simp [modelsHandler, modelsAuthHeader, jsTruthy, hk]
  · intro hk
    subst hk
    simp [modelsHandler, modelsAuthHeader, jsTruthy]

/-- C10 witness: with key `abc` the header carries `abc`; with the empty
key the environment key `env` is substituted and the response equals the
one a non-empty key would get. -/
theorem models_auth_header_and_no_local_reject_witness :
    ("abc" ≠ "") ∧ (modelsHandler "abc" "env" .thrown).1 = "Bearer " ++ "abc" ∧
    (modelsHandler "" "env" .thrown).1 = "Bearer " ++ "env" :=
  ⟨by decide, (models_auth_header_and_no_local_reject "abc" "env" .thrown).1 (by decide),
   (models_auth_header_and_no_local_reject "" "env" .thrown).2.1 rfl⟩

/-- A small JSON value model: enough for the handler's response bodies and
for the conversation export format. -/
inductive Json where
  | str (s : String)
  | num (n : Nat)
  | arr (elems : List Json)
  | obj (fields : List (String × Json))
  | jnull

/-- Serialization of an `OpenAIModel` record, field for field. -/
def modelToJson (m : OpenAIModel) : Json :=
  .obj [("id", .str m.id), ("name", .str m.name),
        ("maxLength", .num m.maxLength), ("tokenLimit", .num m.tokenLimit)]

/-- The JSON body `JSON.stringify(models)` denotes: the array of the
serialized model records. -/
def modelsBodyJson (ms : List OpenAIModel) : Json :=
  .arr (ms.map modelToJson)

/-- The JSON body of a handler response: the serialized model list on the
model-list paths; the 401 passthrough forwards the upstream's raw body and
carries no JSON body of the handler's own. -/
def responseBodyJson : ModelsResponse → Option Json
  | .modelList _ ms => some (modelsBodyJson ms)
  | .passthrough _ => none

/-- Is a JSON value an object with exactly the fields `id` (string),
`name` (string), `maxLength` (number) and `tokenLimit` (number)? -/
def isModelShape : Json → Bool
  | .obj [(k1, .str _), (k2, .str _), (k3, .num _), (k4, .num _)] =>
      k1 == "id" && k2 == "name" && k3 == "maxLength" && k4 == "tokenLimit"
  | _ => false

theorem isModelShape_modelToJson (m : OpenAIModel) : isModelShape (modelToJson m) = true := rfl

/-- C7: every JSON body /api/models produces of its own (success, dynamic
or fallback path alike) is a JSON array each of whose elements is an object
with exactly the fields id (string), name (string), maxLength (number) and
tokenLimit (number). -/
theorem models_body_is_model_array (key envKey : String) (r : FetchOutcome) (j : Json)
    (h : responseBodyJson (modelsHandler key envKey r).2 = some j) :
    ∃ elems, j = .arr elems ∧ ∀ e ∈ elems, isModelShape e = true := by
  cases hr : (modelsHandler key envKey r).2 with
  | passthrough s =>
      rw [hr] at h
      simp [responseBodyJson] at h
  | modelList s ms =>
      rw [hr] at h
      simp only [responseBodyJson, Option.some.injEq] at h
      subst h
      refine ⟨ms.map modelToJson, rfl, ?_⟩
      intro e he
      obtain ⟨m, _, rfl⟩ := List.mem_map.mp he
      exact isModelShape_modelToJson m

/-- C7 witness: the fallback body is an array of well-shaped model
objects. -/
theorem models_body_is_model_array_witness :
    responseBodyJson (modelsHandler "k" "e" .thrown).2 = some (modelsBodyJson fallbackModels) ∧
    ∃ elems, modelsBodyJson fallbackModels = .arr elems ∧ ∀ e ∈ elems, isModelShape e = true :=
  ⟨rfl, models_body_is_model_array "k" "e" .thrown (modelsBodyJson fallbackModels) rfl⟩

/-- Modelled from the spec: a chat message of a stored conversation
(conversation persistence code is not among the provided sources). -/
structure ChatMessage where
  role : String
  content : String
deriving DecidableEq, Repr

/-- Modelled from the spec: a conversation record held in browser local
storage — id, name, ordered message list, associated model id, folder
id. -/
structure Conversation where
  id : String
  name : String
  messages : List ChatMessage
  modelId : String
  folderId : Option String
deriving DecidableEq, Repr

/-- Serialization of a chat message. -/
def ChatMessage.toJson (m : ChatMessage) : Json :=
  .obj [("role", .str m.role), ("content", .str m.content)]

/-- Parse a chat message, checking the field names. -/
def ChatMessage.fromJson : Json → Option ChatMessage
  | .obj [(k1, .str r), (k2, .str c)] =>
      if k1 == "role" && k2 == "content" then some ⟨r, c⟩ else none
  | _ => none

/-- Parse a message array element by element; any malformed element makes
the whole parse fail. -/
def decodeMessages : List Json → Option (List ChatMessage)
  | [] => some []
  | j :: rest =>
      match ChatMessage.fromJson j, decodeMessages rest with
      | some m, some ms => some (m :: ms)
      | _, _ => none

/-- Serialization of a conversation record. -/
def Conversation.toJson (c : Conversation) : Json :=
  .obj [("id", .str c.id), ("name", .str c.name),
        ("messages", .arr (c.messages.map ChatMessage.toJson)),
        ("model", .str c.modelId),
        ("folderId", match c.folderId with | some f => .str f | none => .jnull)]

/-- Parse an optional folder id (a string or null). -/
def decodeFolderId : Json → Option (Option String)
  | .str f => some (some f)
  | .jnull => some none
  | _ => none

/-- Parse a conversation record, checking the field names. -/
def Conversation.fromJson : Json → Option Conversation
  | .obj [(k1, .str i), (k2, .str n), (k3, .arr msgs), (k4, .str mid), (k5, fj)] =>
      if k1 == "id" && k2 == "name" && k3 == "messages" && k4 == "model" && k5 == "folderId" then
        match decodeMessages msgs, decodeFolderId fj with
        | some ms, some fid => some ⟨i, n, ms, mid, fid⟩
        | _, _ => none
      else none
  | _ => none

/-- Parse a conversation array element by element. -/
def decodeConversations : List Json → Option (List Conversation)
  | [] => some []
  | j :: rest =>
      match Conversation.fromJson j, decodeConversations rest with
      | some c, some cs => some (c :: cs)
      | _, _ => none

/-- Modelled from the spec: exporting the stored conversations serializes
them, in their stored order, into the export file's history array. -/
def exportConversations (history : List Conversation) : Json :=
  .obj [("history", .arr (history.map Conversation.toJson))]

/-- Modelled from the spec: importing an export file parses its history
array back into conversation records. -/
def importConversations : Json → Option (List Conversation)
  | .obj [(k, .arr hs)] => if k == "history" then decodeConversations hs else none
  | _ => none

theorem fromJson_toJson_message (m : ChatMessage) :
    ChatMessage.fromJson m.toJson = some m := by
  simp [ChatMessage.toJson, ChatMessage.fromJson]

theorem decodeMessages_map (ms : List ChatMessage) :
    decodeMessages (ms.map ChatMessage.toJson) = some ms := by
  induction ms with
  | nil => rfl
  | cons m rest ih => simp [decodeMessages, fromJson_toJson_message, ih]

theorem fromJson_toJson_conversation (c : Conversation) :
    Conversation.fromJson c.toJson = some c := by
  obtain ⟨i, n, ms, mid, fid⟩ := c
  cases fid with
  | none =>
      simp [Conversation.toJson, Conversation.fromJson, decodeMessages_map, decodeFolderId]
  | some f =>
      simp [Conversation.toJson, Conversation.fromJson, decodeMessages_map, decodeFolderId]

theorem decodeConversations_map (cs : List Conversation) :
    decodeConversations (cs.map Conversation.toJson) = some cs := by
  induction cs with
  | nil => rfl
  | cons c rest ih => simp [decodeConversations, fromJson_toJson_conversation, ih]

/-- C8: re-importing an exported conversation list yields the stored
conversations back identically — same records in the same order — so in
particular every conversation's message list (messages and their order)
round-trips unchanged. -/
theorem export_import_roundtrip (history : List Conversation) :
    importConversations (exportConversations history) = some history ∧
    (importConversations (exportConversations history)).map
        (fun cs => cs.map Conversation.messages) =
      some (history.map Conversation.messages) := by
  have h : importConversations (exportConversations history) = some history := by
    simp [exportConversations, importConversations, decodeConversations_map]
  exact ⟨h, by rw [h]; rfl⟩

end GroqBot
